import Mathlib

/-!
Verification of the distributed alignment core of CircuitSeeker
(`CircuitSeeker/align.py` together with `CircuitSeeker/utility.py`).

The development shallowly embeds the partitioning, origin-correction,
scheduling, failure-handling and stitching logic of the source.  Machine
floats are read as exact rationals, numpy arrays become Lean lists or
functions, and the external collaborators (the ITK optimizer, scipy's
rotation-vector conversion, the dask cluster, the field-composition
oracle) are passed in as explicit oracle parameters.
-/

/-! ## Block partitioning (`distributed_piecewise_affine_align`, lines 737-747)

`blocksize = np.ceil(np.array(fix.shape).astype(np.float32) / nblocks)`,
read in exact arithmetic: the per-axis ceiling of `shape / nblocks`. -/

/-- Per-axis block extent: `ceil(shape / n)`, the exact-arithmetic reading of
`np.ceil(shape.astype(np.float32) / nblocks)` from line 738-739. -/
def blocksize (shape n : ℕ) : ℕ := (shape + n - 1) / n

/-- Trailing pad per axis, from lines 744-745:
`(0, y - x % y) if x % y > 0 else (0, 0)` for `x` the shape, `y` the blocksize. -/
def trailing_pad (shape bs : ℕ) : ℕ := if shape % bs > 0 then bs - shape % bs else 0

/-- Shape after `np.pad(fix, pads)` on one axis (line 746). -/
def padded_shape (shape bs : ℕ) : ℕ := shape + trailing_pad shape bs

/-! ## Numpy 1-D broadcasting at line 738

`np.array(fix.shape) / nblocks` divides two 1-D arrays.  Numpy broadcasting
of two 1-D arrays succeeds iff the lengths are equal or one of them is 1
(the length-1 operand is repeated); otherwise a `ValueError` is raised,
which `distributed_piecewise_affine_align` does not catch. -/

/-- Numpy 1-D broadcast compatibility: lengths equal, or either operand has
length 1. -/
def numpy_broadcast_ok (m n : ℕ) : Bool := m == n || m == 1 || n == 1

/-- Pair up `fix.shape` with `nblocks` under numpy broadcasting; `none` models
the uncaught `ValueError` at line 738 of `distributed_piecewise_affine_align`. -/
def numpy_broadcast_pairs (shape nblocks : List ℕ) : Option (List (ℕ × ℕ)) :=
  if numpy_broadcast_ok shape.length nblocks.length then
    if shape.length = nblocks.length then some (shape.zip nblocks)
    else if nblocks.length = 1 then some (shape.map fun s => (s, nblocks.headI))
    else some (nblocks.map fun n => (shape.headI, n))
  else none

/-- The per-axis blocksizes computed at the top of
`distributed_piecewise_affine_align`; `none` models an uncaught `ValueError`
raised to the caller: either the broadcast failure at line 738, or the
failure of `rechunk(tuple(blocksize))` at line 757 — dask's chunk
normalization requires exactly one chunk extent per array axis, so a
blocksize tuple whose length differs from the array's dimensionality (as
with a 1-D volume and a longer `nblocks`) raises there even though the
earlier broadcast succeeded. -/
def distributed_piecewise_affine_align_blocksizes
    (shape nblocks : List ℕ) : Option (List ℕ) :=
  match numpy_broadcast_pairs shape nblocks with
  | none => none
  | some pairs =>
    let bs := pairs.map fun p => blocksize p.1 p.2
    if bs.length = shape.length then some bs else none

/-! ## Homogeneous 4x4 transforms -/

/-- A 4x4 homogeneous transform matrix, the `4x4 array` of the source read
over exact rationals. -/
abbrev Mat4 := Matrix (Fin 4) (Fin 4) ℚ

/-- The translation matrix built repeatedly in the source as
`tl = np.eye(4); tl[:3, -1] = t` (e.g. `align.py` lines 324-325, 800-801). -/
def translationMatrix (t : Fin 3 → ℚ) : Mat4 :=
  !![1, 0, 0, t 0;
     0, 1, 0, t 1;
     0, 0, 1, t 2;
     0, 0, 0, 1]

/-- Embedding of a 3x3 matrix into the rotation slot of a 4x4 homogeneous
matrix: `rotation = np.eye(4); rotation[:3, :3] = R` (lines 321-322). -/
def embed3 (R : Matrix (Fin 3) (Fin 3) ℚ) : Mat4 :=
  !![R 0 0, R 0 1, R 0 2, 0;
     R 1 0, R 1 1, R 1 2, 0;
     R 2 0, R 2 1, R 2 2, 0;
     0, 0, 0, 1]

/-! ## `single_affine_align` origin correction (`align.py` lines 780-804)

Inside `distributed_piecewise_affine_align`, each block's locally computed
affine is corrected for the block's origin:
```
idx = block_info[0]['chunk-location']
origin = np.maximum(0, blocksize * idx - overlaps)
origin = origin * fix_spacing
tl, tr = np.eye(4), np.eye(4)
tl[:3, -1], tr[:3, -1] = origin, -origin
affine = np.matmul(tl, np.matmul(affine, tr))
``` -/

/-- The physical-space block origin `np.maximum(0, blocksize * idx - overlaps)
* fix_spacing` (lines 797-799). -/
def single_affine_align_origin (bs ov idx : Fin 3 → ℤ) (fix_spacing : Fin 3 → ℚ) :
    Fin 3 → ℚ :=
  fun i => ((max 0 (bs i * idx i - ov i) : ℤ) : ℚ) * fix_spacing i

/-- The origin correction `np.matmul(tl, np.matmul(affine, tr))` applied to a
block's local affine (lines 800-802). -/
def single_affine_align_correction (origin : Fin 3 → ℚ) (affine : Mat4) : Mat4 :=
  translationMatrix origin * (affine * translationMatrix (fun i => -origin i))

/-! ## `params_to_affine_matrix` (`align.py` lines 314-342)

The parameter rows are 12-vectors: translation `params[0:3]`, rotation
vector `params[3:6]`, scale `params[6:9]`, shear `params[9:12]`.  The
conversion from a rotation vector to a 3x3 rotation matrix is done by
`scipy.spatial.transform.Rotation.from_rotvec`, an external collaborator
passed here as the oracle `rotvec_to_matrix`. -/

/-- `translation = np.eye(4); translation[:3, -1] = params[:3]` (lines 317-318). -/
def pta_translation (params : Fin 12 → ℚ) : Mat4 :=
  translationMatrix ![params 0, params 1, params 2]

/-- Rotation about the image center (lines 321-326):
`rotation[:3,:3] = Rotation.from_rotvec(params[3:6]).as_matrix()`, then
`rotation = tl @ rotation @ tr` with `tl`, `tr` translating by `center` and
`-center`, where `center = np.array(fix.shape) / 2 * fix_spacing`. -/
def pta_rotation (rotvec_to_matrix : (Fin 3 → ℚ) → Matrix (Fin 3) (Fin 3) ℚ)
    (center : Fin 3 → ℚ) (params : Fin 12 → ℚ) : Mat4 :=
  translationMatrix center *
    (embed3 (rotvec_to_matrix ![params 3, params 4, params 5]) *
      translationMatrix (fun i => -center i))

/-- `scale = np.diag(list(params[6:9]) + [1])` (line 329). -/
def pta_scale (params : Fin 12 → ℚ) : Mat4 :=
  !![params 6, 0, 0, 0;
     0, params 7, 0, 0;
     0, 0, params 8, 0;
     0, 0, 0, 1]

/-- `shx[1,0], shx[2,0] = params[10], params[11]` (line 333). -/
def pta_shear_x (params : Fin 12 → ℚ) : Mat4 :=
  !![1, 0, 0, 0;
     params 10, 1, 0, 0;
     params 11, 0, 1, 0;
     0, 0, 0, 1]

/-- `shy[0,1], shy[2,1] = params[9], params[11]` (line 334). -/
def pta_shear_y (params : Fin 12 → ℚ) : Mat4 :=
  !![1, params 9, 0, 0;
     0, 1, 0, 0;
     0, params 11, 1, 0;
     0, 0, 0, 1]

/-- `shz[0,2], shz[1,2] = params[9], params[10]` (line 335). -/
def pta_shear_z (params : Fin 12 → ℚ) : Mat4 :=
  !![1, 0, params 9, 0;
     0, 1, params 10, 0;
     0, 0, 1, 0;
     0, 0, 0, 1]

/-- `shear = np.matmul(shz, np.matmul(shy, shx))` (line 336). -/
def pta_shear (params : Fin 12 → ℚ) : Mat4 :=
  pta_shear_z params * (pta_shear_y params * pta_shear_x params)

/-- `params_to_affine_matrix` (lines 314-342): the composition
`aff = shear @ (scale @ (rotation @ translation))` of lines 339-342. -/
def params_to_affine_matrix
    (rotvec_to_matrix : (Fin 3 → ℚ) → Matrix (Fin 3) (Fin 3) ℚ)
    (center : Fin 3 → ℚ) (params : Fin 12 → ℚ) : Mat4 :=
  pta_shear params *
    (pta_scale params * (pta_rotation rotvec_to_matrix center params * pta_translation params))

/-! ## `random_affine_search` candidate generation and scoring
(`align.py` lines 344-351 and 382-396) -/

/-- The first parameter row after `params = np.zeros((random_iterations+1, 12));
params[:, 6:9] = 1`: zero translation, rotation and shear, unit scale
(lines 344-346).  Rows `1:` are overwritten with random samples; row 0 is not. -/
def identity_params : Fin 12 → ℚ :=
  fun i => if 6 ≤ (i : ℕ) ∧ (i : ℕ) < 9 then 1 else 0

/-- The full candidate list: row 0 is `identity_params`, rows `1 ..
random_iterations` are the randomly sampled rows (lines 344-351). -/
def candidate_params (random_iterations : ℕ) (randomRow : ℕ → Fin 12 → ℚ) :
    List (Fin 12 → ℚ) :=
  identity_params :: (List.range random_iterations).map randomRow

/-- `np.finfo(np.float64).max`, the worst possible score assigned to a failing
candidate at line 391. -/
def float64_max : ℚ := (2 ^ 53 - 1) * 2 ^ 971

/-- Outcome of the candidate-scoring loop of `random_affine_search`:
either the early `return np.eye(4)` from the failure budget (line 396),
or the completed array of scores. -/
inductive RandomSearchOutcome where
  | defaultEarly (fail_count : ℕ) (transform : Mat4)
  | scored (scores : List ℚ)

/-- The candidate-scoring loop of lines 382-396.  `evaluate i` is the oracle
for `irm.MetricEvaluate` on candidate `i`: `some s` is a score, `none` is a
raised exception.  On an exception the candidate's score is set to
`float64_max` and the failure counter incremented; once
`fail_count >= 10 or fail_count >= total` the whole search returns the 4x4
identity. -/
def random_affine_search_score_loop (evaluate : ℕ → Option ℚ) (total : ℕ) :
    List ℕ → ℕ → List ℚ → RandomSearchOutcome
  | [], _, scores => .scored scores
  | i :: rest, fail_count, scores =>
    match evaluate i with
    | some s => random_affine_search_score_loop evaluate total rest fail_count (scores ++ [s])
    | none =>
      if fail_count + 1 ≥ 10 ∨ fail_count + 1 ≥ total then
        .defaultEarly (fail_count + 1) 1
      else
        random_affine_search_score_loop evaluate total rest (fail_count + 1)
          (scores ++ [float64_max])

/-- Scoring of all `random_iterations + 1` candidates with `fail_count = 0`
(lines 382-384). -/
def random_affine_search_scores (evaluate : ℕ → Option ℚ) (random_iterations : ℕ) :
    RandomSearchOutcome :=
  random_affine_search_score_loop evaluate (random_iterations + 1)
    (List.range (random_iterations + 1)) 0 []

/-! ## `affine_align` failure guards (`align.py` lines 528-615)

Masks are flattened binary arrays, here `List Bool`.  The expensive ITK
optimization (`irm.MetricEvaluate` / `irm.Execute` at lines 589-593) is an
external collaborator; its outcome is an oracle input. -/

/-- Jaccard index of two binary masks: intersection over union.
Modelled from the spec: `jaccard_filter` lives in `CircuitSeeker.quality`,
which is not under `src/`; the spec defines the Jaccard index as the
intersection-over-union similarity between two binary masks. -/
def jaccard_index (a b : List Bool) : ℚ :=
  let pairs := a.zip b
  ((pairs.filter fun p => p.1 && p.2).length : ℚ) /
    ((pairs.filter fun p => p.1 || p.2).length : ℚ)

/-- Modelled from the spec: `jaccard_filter` from `CircuitSeeker.quality`
(not under `src/`) passes exactly when the Jaccard index of the two masks
meets the threshold; "if the index is less than this threshold the
alignment is skipped and the default is returned". -/
def jaccard_filter (fix_mask mov_mask : List Bool) (threshold : ℚ) : Bool :=
  threshold ≤ jaccard_index fix_mask mov_mask

/-- Outcome of the ITK optimization block at lines 589-593: either an
exception (`failure`), or completion with the initial metric value, the final
metric value and the optimized transform matrix. -/
inductive ExecOutcome where
  | failure
  | success (initial_metric final_metric : ℚ) (optimized : Mat4)

/-- The arguments of `affine_align` relevant to its failure-guard logic,
with the external optimization outcome as an oracle field. -/
structure AffineAlignArgs where
  fix_mask : Option (List Bool)
  mov_mask : Option (List Bool)
  jaccard_filter_threshold : Option ℚ
  initial_transform : Option Mat4
  default : Mat4
  execute : ExecOutcome

/-- Lines 528-530: `if initial_transform is not None and
np.all(default == np.eye(4)): default = initial_transform`. -/
def effective_default (args : AffineAlignArgs) : Mat4 :=
  match args.initial_transform with
  | some t => if ∀ i j, args.default i j = (1 : Mat4) i j then t else args.default
  | none => args.default

/-- Lines 532-537: the Jaccard pre-check fires only when the threshold and
both masks are all supplied and `jaccard_filter` fails. -/
def jaccard_gated (args : AffineAlignArgs) : Bool :=
  match args.jaccard_filter_threshold, args.fix_mask, args.mov_mask with
  | some t, some fm, some mm => ! jaccard_filter fm mm t
  | _, _, _ => false

/-- `affine_align` (lines 437-615), reduced to its guard structure: the
returned transform together with the number of times the ITK aligner was
invoked.  When the Jaccard gate fires the default is returned with zero
aligner invocations (lines 536-540); otherwise the aligner runs once and
the result is kept only if the final metric strictly improved on the
initial one (lines 589-615). -/
def affine_align (args : AffineAlignArgs) : Mat4 × ℕ :=
  let d := effective_default args
  if jaccard_gated args then (d, 0)
  else
    match args.execute with
    | .failure => (d, 1)
    | .success initial_metric final_metric optimized =>
      if final_metric < initial_metric then (optimized, 1) else (d, 1)

/-! ## `distributed_twist_align` outer/inner scheduling
(`align.py` lines 974-1049)

A displacement field is embedded as a function from flattened voxel index
to a rational component; all the source's field arithmetic (`+`, `/ len`,
`np.zeros_like`) is pointwise.  The fields produced by the inner-level
calls to `distributed_piecewise_affine_align` and the external
`compose_displacement_vector_fields` oracle are inputs. -/

/-- Pointwise accumulation `ddd += field` over one inner list, starting from
`ddd = np.zeros_like(deform)` (lines 980, 995). -/
def field_sum (fields : List (ℕ → ℚ)) : ℕ → ℚ :=
  fields.foldl (fun a b => fun p => a p + b p) (fun _ => 0)

/-- The outer level's contribution `ddd = ddd / len(inner_list)` (line 1010). -/
def field_mean (fields : List (ℕ → ℚ)) : ℕ → ℚ :=
  fun p => field_sum fields p / (fields.length : ℚ)

/-- The accumulated-deform loop of `distributed_twist_align`
(lines 974-1016, 1049): `deform` starts as the zero field; for each outer
level the inner fields are averaged, and only `if outer_level > 0` is the
average composed onto `deform` via the external oracle (lines 1013-1016).
`block_schedule` is given as the stitched field returned by each inner-level
`distributed_piecewise_affine_align` call. -/
def distributed_twist_align
    (compose : (ℕ → ℚ) → (ℕ → ℚ) → (ℕ → ℚ))
    (block_schedule : List (List (ℕ → ℚ))) : ℕ → ℚ :=
  block_schedule.enum.foldl
    (fun deform lvl =>
      if lvl.1 > 0 then compose deform (field_mean lvl.2) else deform)
    (fun _ => 0)

/-! ## Translation stitching in `distributed_piecewise_exhaustive_translation`
(`align.py` lines 1316-1322)

```
dvf = np.zeros(fix.shape + (3,), dtype=np.float32)
weights = np.pad([[[1.]]], [(s, s) for s in stride], mode='linear_ramp')
for t, x, y, z in zip(translations, samples[0], samples[1], samples[2]):
    s = [slice(x-stride[0], x+stride[0]+1), ...]
    dvf[tuple(s)] += t * weights[..., None]
```
`np.pad` of a unit impulse with `linear_ramp` pads each axis in turn with a
linear ramp from the edge value down to 0, so the weight at offset `d` from
the center is the separable product of the per-axis ramps
`(stride - |d|) / stride`. -/

/-- The 1-D `linear_ramp` weight at signed offset `d` from the center of a
window of radius `stride` (the value of
`np.pad([1.], (stride, stride), mode='linear_ramp')` at that offset,
for offsets inside the window). -/
def linear_ramp_weight (stride : ℕ) (d : ℤ) : ℚ :=
  ((stride : ℚ) - (d.natAbs : ℚ)) / (stride : ℚ)

/-- The separable 3-D window weight at offset `off` from the sample center. -/
def stitch_window_weight (stride : Fin 3 → ℕ) (off : Fin 3 → ℤ) : ℚ :=
  ∏ i : Fin 3, linear_ramp_weight (stride i) (off i)

/-- The increment a single sample `(center, t)` adds to `dvf` at voxel `p`:
`t * weights[..., None]` inside the window `[center - stride, center + stride]`
(the sliced region), nothing outside it. -/
def stitch_contribution (stride : Fin 3 → ℕ) (center p : Fin 3 → ℤ)
    (t : Fin 3 → ℚ) : Fin 3 → ℚ :=
  if ∀ i, (p i - center i).natAbs ≤ stride i then
    fun j => stitch_window_weight stride (fun i => p i - center i) * t j
  else
    fun _ => 0

/-- The stitched displacement field at voxel `p`: the loop over samples with
`dvf[tuple(s)] += t * weights[..., None]`, starting from the zero field. -/
def stitched_field (stride : Fin 3 → ℕ)
    (samples : List ((Fin 3 → ℤ) × (Fin 3 → ℚ))) (p : Fin 3 → ℤ) : Fin 3 → ℚ :=
  samples.foldl
    (fun acc s => fun j => acc j + stitch_contribution stride s.1 p s.2 j)
    (fun _ => 0)

/-! ## Sample selection in `distributed_piecewise_exhaustive_translation`
(`align.py` lines 1252-1280)

```
search_radius = [q+x*y for q, x, y in zip(query_radius, num_steps, step_sizes)]
limit = [x if x > y else y for x, y in zip(search_radius, stride)]
samples = np.zeros(fix.shape, dtype=bool)
samples[limit[0]:-limit[0]:stride[0], ...] = 1
if mask is not None:
    samples = samples * mask
samples = np.nonzero(samples)
``` -/

/-- The per-axis data of `distributed_piecewise_exhaustive_translation`'s
sample-point selection. -/
structure ExhaustiveAxis where
  shape : ℕ
  query_radius : ℕ
  num_steps : ℕ
  step_sizes : ℕ
  stride : ℕ

/-- `search_radius = q + x*y` for query radius `q`, `num_steps` `x`,
`step_sizes` `y` (line 1252). -/
def axis_search_radius (a : ExhaustiveAxis) : ℕ :=
  a.query_radius + a.num_steps * a.step_sizes

/-- `limit = x if x > y else y` over search radius and stride (line 1255). -/
def axis_limit (a : ExhaustiveAxis) : ℕ :=
  if axis_search_radius a > a.stride then axis_search_radius a else a.stride

/-- The coordinates along one axis selected by the strided slice
`samples[limit:-limit:stride] = 1`: all `c` with `limit <= c < shape - limit`
and `(c - limit) % stride == 0`. -/
def axis_sample_coords (a : ExhaustiveAxis) : List ℕ :=
  (List.range a.shape).filter fun c =>
    decide (axis_limit a ≤ c) &&
    decide (c + axis_limit a < a.shape) &&
    decide ((c - axis_limit a) % a.stride = 0)

/-- All 3-D sample centers before masking: the `np.nonzero` of the strided
boolean grid. -/
def exhaustive_sample_points (a₀ a₁ a₂ : ExhaustiveAxis) : List (ℕ × ℕ × ℕ) :=
  (axis_sample_coords a₀).flatMap fun x =>
    (axis_sample_coords a₁).flatMap fun y =>
      (axis_sample_coords a₂).map fun z => (x, y, z)

/-- Sample centers after the optional mask multiplication
`samples = samples * mask` (lines 1262-1263). -/
def exhaustive_sample_points_masked (a₀ a₁ a₂ : ExhaustiveAxis)
    (mask : ℕ × ℕ × ℕ → Bool) : List (ℕ × ℕ × ℕ) :=
  (exhaustive_sample_points a₀ a₁ a₂).filter mask

/-- A sample center `c` is at least the context limit from both edges of its
axis, and the fixed-block slice `[c - search_radius, c + search_radius]`,
the moving-block slice `[c - query_radius, c + query_radius]` and the
stitching window `[c - stride, c + stride]` all lie inside `[0, shape)`. -/
def axis_center_in_bounds (a : ExhaustiveAxis) (c : ℕ) : Prop :=
  axis_limit a ≤ c ∧ c + axis_limit a < a.shape ∧
    axis_search_radius a ≤ c ∧ c + axis_search_radius a < a.shape ∧
    a.query_radius ≤ c ∧ c + a.query_radius < a.shape ∧
    a.stride ≤ c ∧ c + a.stride < a.shape

/-! ## Theorems -/

/-- For a positive block count, the computed blocksize divides the padded
shape on that axis. -/
theorem blocksize_dvd_padded_shape (shape n : ℕ) (hn : 0 < n) :
    blocksize shape n ∣ padded_shape shape (blocksize shape n) := by
  rcases Nat.eq_zero_or_pos shape with hs | hs
  · subst hs
    have hb : blocksize 0 n = 0 := by
      unfold blocksize
      exact Nat.div_eq_of_lt (by omega)
    simp [hb, padded_shape, trailing_pad]
  · have hb : 0 < blocksize shape n := Nat.div_pos (by omega) hn
    set b := blocksize shape n with hbdef
    by_cases hm : shape % b = 0
    · have : b ∣ shape := Nat.dvd_of_mod_eq_zero hm
      simpa [padded_shape, trailing_pad, hm] using this
    · have h1 : b * (shape / b) + shape % b = shape := Nat.div_add_mod shape b
      have h2 : shape % b < b := Nat.mod_lt shape hb
      refine ⟨shape / b + 1, ?_⟩
      rw [Nat.mul_succ]
      simp only [padded_shape, trailing_pad]
      rw [if_pos (Nat.pos_of_ne_zero hm)]
      omega

/-- C3: for every volume shape and block-count tuple of matching length with
positive counts, the padded shape is exactly divisible by the blocksize
`ceil(shape / block_count)` on every axis. -/
theorem padded_shape_divisible (shape nblocks : List ℕ)
    (_hlen : shape.length = nblocks.length)
    (hpos : ∀ n ∈ nblocks, 0 < n) :
    ∀ p ∈ shape.zip nblocks,
      blocksize p.1 p.2 ∣ padded_shape p.1 (blocksize p.1 p.2) := by
  intro p hp
  obtain ⟨-, hn⟩ := List.of_mem_zip hp
  exact blocksize_dvd_padded_shape p.1 p.2 (hpos _ hn)

/-- Witness for C3 at a concrete shape and block count. -/
theorem padded_shape_divisible_witness :
    ([10, 7, 5] : List ℕ).length = ([3, 2, 5] : List ℕ).length ∧
      blocksize 10 3 ∣ padded_shape 10 (blocksize 10 3) :=
  ⟨by decide,
   padded_shape_divisible [10, 7, 5] [3, 2, 5] (by decide) (by decide)
     (10, 3) (by decide)⟩

/-- C8 counterexample: a 3-D fixed volume with an `nblocks` of length 1 does
not raise — numpy broadcasts the single count across all three axes and the
computation proceeds, contradicting the claim that any length mismatch is
fatal. -/
theorem distributed_piecewise_affine_align_length_one_no_error :
    ([4, 4, 4] : List ℕ).length ≠ ([2] : List ℕ).length ∧
      distributed_piecewise_affine_align_blocksizes [4, 4, 4] [2] =
        some [2, 2, 2] := by
  constructor
  · decide
  · rfl

/-- C8 amended: `distributed_piecewise_affine_align` raises to its caller
exactly when the length of `nblocks` differs from the dimensionality of the
fixed volume and the length of `nblocks` is not 1: a length-1 `nblocks` is
broadcast by numpy across all axes and no error is raised, while every other
mismatch raises — at the broadcast (line 738) when neither length is 1, or
at the `rechunk` (line 757) when the volume is 1-D and `nblocks` is longer. -/
theorem distributed_piecewise_affine_align_raises_iff
    (shape nblocks : List ℕ) :
    distributed_piecewise_affine_align_blocksizes shape nblocks = none ↔
      shape.length ≠ nblocks.length ∧ nblocks.length ≠ 1 := by
  by_cases h1 : shape.length = nblocks.length
  · have hb : numpy_broadcast_pairs shape nblocks = some (shape.zip nblocks) := by
      unfold numpy_broadcast_pairs numpy_broadcast_ok
      simp [h1]
    unfold distributed_piecewise_affine_align_blocksizes
    rw [hb]
    simp [List.length_zip, h1]
  · by_cases h2 : nblocks.length = 1
    · have hb : numpy_broadcast_pairs shape nblocks =
          some (shape.map fun s => (s, nblocks.headI)) := by
        unfold numpy_broadcast_pairs numpy_broadcast_ok
        simp [h1, h2]
        intro h
        exact absurd (by omega) h1
      unfold distributed_piecewise_affine_align_blocksizes
      rw [hb]
      simp [h2]
    · by_cases h3 : shape.length = 1
      · have hb : numpy_broadcast_pairs shape nblocks =
            some (nblocks.map fun n => (shape.headI, n)) := by
          unfold numpy_broadcast_pairs numpy_broadcast_ok
          simp [h1, h2, h3]
          intro h
          exact absurd (by omega) h1
        unfold distributed_piecewise_affine_align_blocksizes
        rw [hb]
        simp [h1, h2, h3]
        omega
      · have hb : numpy_broadcast_pairs shape nblocks = none := by
          unfold numpy_broadcast_pairs numpy_broadcast_ok
          simp [h1, h2, h3]
        unfold distributed_piecewise_affine_align_blocksizes
        rw [hb]
        simp [h1, h2, h3]

/-- Two translation matrices by opposite vectors compose to the identity:
`tl @ tr = I` for `tl[:3,-1] = t`, `tr[:3,-1] = -t`. -/
theorem translationMatrix_mul_neg (t : Fin 3 → ℚ) :
    translationMatrix t * translationMatrix (fun i => -t i) = 1 := by
  ext i j
  fin_cases i <;> fin_cases j <;>
    simp [translationMatrix, Matrix.mul_apply, Fin.sum_univ_four, Matrix.one_apply,
      Matrix.vecHead, Matrix.vecTail]

/-- C2: in `distributed_piecewise_affine_align`, the per-block transform
returned by `single_affine_align` is `T * A * T⁻¹` where `A` is the locally
computed affine and `T` translates by the block's physical-space origin
`max(0, idx * blocksize - overlap) * fix_spacing`; in particular when the
local affine is the identity the corrected global transform is the identity. -/
theorem single_affine_align_origin_correction
    (bs ov idx : Fin 3 → ℤ) (fix_spacing : Fin 3 → ℚ) (A : Mat4) :
    single_affine_align_correction (single_affine_align_origin bs ov idx fix_spacing) A =
        translationMatrix (single_affine_align_origin bs ov idx fix_spacing) * A *
          (translationMatrix (single_affine_align_origin bs ov idx fix_spacing))⁻¹ ∧
      single_affine_align_correction (single_affine_align_origin bs ov idx fix_spacing) 1 = 1 := by
  set o := single_affine_align_origin bs ov idx fix_spacing with ho
  have hinv : (translationMatrix o)⁻¹ = translationMatrix (fun i => -o i) :=
    Matrix.inv_eq_right_inv (translationMatrix_mul_neg o)
  constructor
  · rw [hinv, single_affine_align_correction, Matrix.mul_assoc]
  · rw [single_affine_align_correction, Matrix.one_mul, translationMatrix_mul_neg]

/-- When every metric evaluation raises, the scoring loop aborts with the
identity transform once the failure counter reaches `min 10 total`. -/
theorem score_loop_all_failures (evaluate : ℕ → Option ℚ) (total : ℕ)
    (hev : ∀ i, evaluate i = none) :
    ∀ (l : List ℕ) (fail_count : ℕ) (scores : List ℚ),
      fail_count < min 10 total →
      min 10 total ≤ fail_count + l.length →
      random_affine_search_score_loop evaluate total l fail_count scores =
        .defaultEarly (min 10 total) 1 := by
  intro l
  induction l with
  | nil =>
    intro fail_count scores hlt hle
    simp at hle
    omega
  | cons i rest ih =>
    intro fail_count scores hlt hle
    rw [random_affine_search_score_loop, hev i]
    by_cases habort : fail_count + 1 ≥ 10 ∨ fail_count + 1 ≥ total
    · rw [if_pos habort]
      have : fail_count + 1 = min 10 total := by omega
      rw [this]
    · rw [if_neg habort]
      exact ih (fail_count + 1) _ (by omega) (by simp at hle ⊢; omega)

/-- C4: on every input where every candidate metric evaluation raises, the
scoring loop of `random_affine_search` assigns failing candidates the
maximum float64 score, counts failures, and aborts the whole search with the
4x4 identity matrix as soon as the failure count reaches 10 or the total
candidate count `random_iterations + 1` — hence after at most 10 failures. -/
theorem random_affine_search_all_failures_default
    (random_iterations : ℕ) (evaluate : ℕ → Option ℚ)
    (hev : ∀ i, evaluate i = none) :
    random_affine_search_scores evaluate random_iterations =
        .defaultEarly (min 10 (random_iterations + 1)) 1 ∧
      min 10 (random_iterations + 1) ≤ 10 := by
  constructor
  · unfold random_affine_search_scores
    exact score_loop_all_failures evaluate (random_iterations + 1) hev
      (List.range (random_iterations + 1)) 0 [] (by omega) (by simp)
  · omega

/-- Witness for C4: with `random_iterations = 20` and an always-raising
evaluator, the search returns the identity after exactly 10 failures. -/
theorem random_affine_search_all_failures_default_witness :
    random_affine_search_scores (fun _ => none) 20 =
      .defaultEarly 10 1 := by
  have h := random_affine_search_all_failures_default 20 (fun _ => none) (fun _ => rfl)
  simpa using h.1

/-- As long as the failures among the remaining candidates keep the counter
below the abort budget `min 10 total`, the scoring loop completes and
appends one score per remaining candidate (failing candidates included —
they receive `float64_max`). -/
theorem score_loop_few_failures (evaluate : ℕ → Option ℚ) (total : ℕ) :
    ∀ (l : List ℕ) (fail_count : ℕ) (scores : List ℚ),
      fail_count + (l.countP fun i => (evaluate i).isNone) < min 10 total →
      ∃ tail, random_affine_search_score_loop evaluate total l fail_count scores =
          .scored (scores ++ tail) ∧ tail.length = l.length := by
  intro l
  induction l with
  | nil =>
    intro fail_count scores hbudget
    exact ⟨[], by simp [random_affine_search_score_loop]⟩
  | cons i rest ih =>
    intro fail_count scores hbudget
    rcases hev : evaluate i with - | s
    · have hc : ((i :: rest).countP fun k => (evaluate k).isNone) =
          (rest.countP fun k => (evaluate k).isNone) + 1 := by
        simp [List.countP_cons, hev]
      rw [hc] at hbudget
      have hnoabort : ¬ (fail_count + 1 ≥ 10 ∨ fail_count + 1 ≥ total) := by
        omega
      obtain ⟨tail, htail, hlen⟩ := ih (fail_count + 1) (scores ++ [float64_max])
        (by omega)
      refine ⟨float64_max :: tail, ?_, by simp [hlen]⟩
      rw [random_affine_search_score_loop, hev]
      simp [hnoabort, htail]
      omega
    · have hc : ((i :: rest).countP fun k => (evaluate k).isNone) =
          rest.countP fun k => (evaluate k).isNone := by
        simp [List.countP_cons, hev]
      rw [hc] at hbudget
      obtain ⟨tail, htail, hlen⟩ := ih fail_count (scores ++ [s]) hbudget
      refine ⟨s :: tail, ?_, by simp [hlen]⟩
      rw [random_affine_search_score_loop, hev]
      simp [htail]

/-- Translation by the zero vector is the identity matrix. -/
theorem translationMatrix_zero_eq_one : translationMatrix ![0, 0, 0] = 1 := by
  ext i j
  fin_cases i <;> fin_cases j <;> decide

/-- Embedding the 3x3 identity into a homogeneous matrix gives the 4x4
identity. -/
theorem embed3_one_eq_one : embed3 1 = 1 := by
  ext i j
  fin_cases i <;> fin_cases j <;> decide

/-- The translation factor of the identity parameter row is the identity. -/
theorem pta_translation_identity : pta_translation identity_params = 1 := by
  have h : (![identity_params 0, identity_params 1, identity_params 2] :
      Fin 3 → ℚ) = ![0, 0, 0] := by
    funext i; fin_cases i <;> rfl
  rw [pta_translation, h, translationMatrix_zero_eq_one]

/-- The scale factor of the identity parameter row is the identity. -/
theorem pta_scale_identity : pta_scale identity_params = 1 := by
  ext i j
  fin_cases i <;> fin_cases j <;> decide

/-- The shear factor of the identity parameter row is the identity. -/
theorem pta_shear_identity : pta_shear identity_params = 1 := by
  have hx : pta_shear_x identity_params = 1 := by
    ext i j
    fin_cases i <;> fin_cases j <;> decide
  have hy : pta_shear_y identity_params = 1 := by
    ext i j
    fin_cases i <;> fin_cases j <;> decide
  have hz : pta_shear_z identity_params = 1 := by
    ext i j
    fin_cases i <;> fin_cases j <;> decide
  rw [pta_shear, hx, hy, hz, Matrix.one_mul, Matrix.one_mul]

/-- C10 counterexample: a call that reaches candidate scoring, but whose
metric evaluations all raise, aborts after the 10th failure with the
identity transform — with `random_iterations = 20` the scoring loop never
completes, so fewer than the claimed `random_iterations + 1 = 21` candidates
are scored and no candidate (the identity included) is ranked for the
returned result. -/
theorem random_affine_search_abort_scores_fewer :
    random_affine_search_scores (fun _ => none) 20 = .defaultEarly 10 1 ∧
      ¬ ∃ scores, random_affine_search_scores (fun _ => none) 20 =
          .scored scores := by
  have h : random_affine_search_scores (fun _ => none) 20 = .defaultEarly 10 1 := by
    have h2 := score_loop_all_failures (fun _ => none) 21 (fun _ => rfl)
      (List.range 21) 0 [] (by omega) (by simp only [List.length_range]; omega)
    simpa [random_affine_search_scores] using h2
  refine ⟨h, ?_⟩
  rintro ⟨scores, hs⟩
  rw [h] at hs
  exact RandomSearchOutcome.noConfusion hs

/-- C10 (amended): every call to `random_affine_search` that reaches
candidate scoring has exactly `random_iterations + 1` candidate parameter
rows, the first of which is always the identity row (zero translation,
rotation and shear, unit scale); its affine under `params_to_affine_matrix`
is the 4x4 identity (given that the scipy oracle maps the zero rotation
vector to the identity rotation); and whenever fewer than
`min 10 (random_iterations + 1)` evaluations raise, all
`random_iterations + 1` candidates receive scores, so the identity is among
the candidates ranked for the returned result. -/
theorem random_affine_search_identity_candidate
    (rotvec_to_matrix : (Fin 3 → ℚ) → Matrix (Fin 3) (Fin 3) ℚ)
    (center : Fin 3 → ℚ) (random_iterations : ℕ) (randomRow : ℕ → Fin 12 → ℚ)
    (evaluate : ℕ → Option ℚ)
    (hrot : rotvec_to_matrix ![0, 0, 0] = 1) :
    (candidate_params random_iterations randomRow).length = random_iterations + 1 ∧
      (candidate_params random_iterations randomRow).head? = some identity_params ∧
      params_to_affine_matrix rotvec_to_matrix center identity_params = 1 ∧
      (((List.range (random_iterations + 1)).countP
            fun i => (evaluate i).isNone) < min 10 (random_iterations + 1) →
        ∃ scores, random_affine_search_scores evaluate random_iterations =
            .scored scores ∧ scores.length = random_iterations + 1) := by
  refine ⟨by simp [candidate_params], rfl, ?_, ?_⟩
  · have hR : pta_rotation rotvec_to_matrix center identity_params = 1 := by
      have h345 : (![identity_params 3, identity_params 4, identity_params 5] :
          Fin 3 → ℚ) = ![0, 0, 0] := by
        funext i; fin_cases i <;> rfl
      rw [pta_rotation, h345, hrot, embed3_one_eq_one, Matrix.one_mul,
        translationMatrix_mul_neg]
    rw [params_to_affine_matrix, pta_shear_identity, pta_scale_identity,
      pta_translation_identity, hR]
    simp
  · intro hbudget
    obtain ⟨tail, htail, hlen⟩ :=
      score_loop_few_failures evaluate (random_iterations + 1)
        (List.range (random_iterations + 1)) 0 [] (by omega)
    exact ⟨tail, by simpa [random_affine_search_scores] using htail, by simpa using hlen⟩

/-- Witness for C10 at a concrete oracle, center and iteration count; the
evaluator fails on candidate 0 only, below the abort budget, so all three
candidates are still scored. -/
theorem random_affine_search_identity_candidate_witness :
    params_to_affine_matrix (fun _ => 1) ![0, 0, 0] identity_params = 1 ∧
      ∃ scores, random_affine_search_scores
          (fun i => if i = 0 then none else some 0) 2 =
          .scored scores ∧ scores.length = 3 :=
  ⟨(random_affine_search_identity_candidate (fun _ => 1) ![0, 0, 0] 2
      (fun _ _ => 0) (fun i => if i = 0 then none else some 0) rfl).2.2.1,
   (random_affine_search_identity_candidate (fun _ => 1) ![0, 0, 0] 2
      (fun _ _ => 0) (fun i => if i = 0 then none else some 0) rfl).2.2.2
     (by decide)⟩

/-- C6: when `jaccard_filter_threshold`, `fix_mask` and `mov_mask` are all
supplied and the Jaccard index of the masks is below the threshold,
`affine_align` returns its default with zero aligner invocations; the
default is the caller's `default` argument unless that was left as the
identity and an `initial_transform` was supplied, in which case it is the
initial transform. -/
theorem affine_align_jaccard_gate
    (args : AffineAlignArgs) (t : ℚ) (fm mm : List Bool)
    (ht : args.jaccard_filter_threshold = some t)
    (hfm : args.fix_mask = some fm) (hmm : args.mov_mask = some mm)
    (hidx : jaccard_index fm mm < t) :
    affine_align args = (effective_default args, 0) ∧
      (args.initial_transform = none → effective_default args = args.default) ∧
      (∀ it, args.initial_transform = some it → args.default = 1 →
        effective_default args = it) := by
  have hgate : jaccard_gated args = true := by
    rw [jaccard_gated, ht, hfm, hmm]
    simp [jaccard_filter, not_le, hidx]
  refine ⟨by simp [affine_align, hgate], ?_, ?_⟩
  · intro h
    simp [effective_default, h]
  · intro it h h1
    simp only [effective_default, h]
    rw [if_pos]
    intro i j
    rw [h1]

/-- Witness for C6: disjoint masks, threshold `1/10`, identity default. -/
theorem affine_align_jaccard_gate_witness :
    jaccard_index [true, true] [false, false] < (1 : ℚ) / 10 ∧
      affine_align
          { fix_mask := some [true, true], mov_mask := some [false, false],
            jaccard_filter_threshold := some ((1 : ℚ) / 10),
            initial_transform := none, default := 1,
            execute := .failure } = (1, 0) := by
  refine ⟨by norm_num [jaccard_index], ?_⟩
  have h := (affine_align_jaccard_gate
    { fix_mask := some [true, true], mov_mask := some [false, false],
      jaccard_filter_threshold := some ((1 : ℚ) / 10),
      initial_transform := none, default := 1,
      execute := .failure } ((1 : ℚ) / 10) [true, true] [false, false]
    rfl rfl rfl (by norm_num [jaccard_index]))
  rw [h.1, h.2.1 rfl]

/-- C5: when the Jaccard gate does not fire and the optimization completes
without raising, `affine_align` returns the optimized transform exactly when
the final metric value is strictly below the initial one, and otherwise
returns its default. -/
theorem affine_align_improvement_gate
    (args : AffineAlignArgs) (im fm : ℚ) (opt : Mat4)
    (hgate : jaccard_gated args = false)
    (hexec : args.execute = .success im fm opt) :
    (fm < im ∧ (affine_align args).1 = opt) ∨
      (im ≤ fm ∧ (affine_align args).1 = effective_default args) := by
  by_cases h : fm < im
  · exact Or.inl ⟨h, by simp [affine_align, hgate, hexec, h]⟩
  · exact Or.inr ⟨not_lt.mp h, by simp [affine_align, hgate, hexec, h]⟩

/-- Witness for C5: a strictly improving run returns the optimized matrix. -/
theorem affine_align_improvement_gate_witness :
    (affine_align
        { fix_mask := none, mov_mask := none,
          jaccard_filter_threshold := none,
          initial_transform := none, default := 1,
          execute := .success 1 0 (translationMatrix ![2, 0, 0]) }).1 =
      translationMatrix ![2, 0, 0] := by
  have h := affine_align_improvement_gate
    { fix_mask := none, mov_mask := none,
      jaccard_filter_threshold := none,
      initial_transform := none, default := 1,
      execute := .success 1 0 (translationMatrix ![2, 0, 0]) }
    1 0 (translationMatrix ![2, 0, 0]) rfl rfl
  rcases h with ⟨-, h⟩ | ⟨h1, -⟩
  · exact h
  · norm_num at h1

/-- C1 (code bug): for every compose oracle and every single-outer-level
schedule, the deform returned by `distributed_twist_align` is identically
zero — the loop composes onto `deform` only when `outer_level > 0` and never
assigns the first outer level's contribution, so that contribution
(here a level whose mean field is identically 1) is dropped instead of
becoming the initial deform. -/
theorem distributed_twist_align_drops_first_level :
    (∀ (compose : (ℕ → ℚ) → (ℕ → ℚ) → (ℕ → ℚ)) (inner : List (ℕ → ℚ)) (p : ℕ),
        distributed_twist_align compose [inner] p = 0) ∧
      field_mean [fun _ => (1 : ℚ)] 0 = 1 := by
  constructor
  · intro compose inner p
    rfl
  · norm_num [field_mean, field_sum]

/-- The stitched field at a voxel is the sum of the per-sample
contributions there. -/
theorem stitched_field_eq_sum (stride : Fin 3 → ℕ)
    (samples : List ((Fin 3 → ℤ) × (Fin 3 → ℚ))) (p : Fin 3 → ℤ) (j : Fin 3) :
    stitched_field stride samples p j =
      (samples.map fun s => stitch_contribution stride s.1 p s.2 j).sum := by
  suffices h : ∀ (l : List ((Fin 3 → ℤ) × (Fin 3 → ℚ))) (init : Fin 3 → ℚ),
      (l.foldl (fun acc s => fun k => acc k + stitch_contribution stride s.1 p s.2 k) init) j
        = init j + (l.map fun s => stitch_contribution stride s.1 p s.2 j).sum by
    simpa [stitched_field] using h samples (fun _ => 0)
  intro l
  induction l with
  | nil => intro init; simp
  | cons a rest ih =>
    intro init
    simp only [List.foldl_cons, List.map_cons, List.sum_cons]
    rw [ih]
    ring

/-- C7: in the stitching step of
`distributed_piecewise_exhaustive_translation`, the linear-ramp weight is 1
at the sample center and 0 at the window edge; a single isolated sample
reproduces its translation exactly at its own coordinate, contributes
nothing at twice the stride distance, and samples combine additively. -/
theorem stitched_field_properties (stride : Fin 3 → ℕ) (hs : ∀ i, 0 < stride i)
    (center : Fin 3 → ℤ) (t : Fin 3 → ℚ) :
    stitched_field stride [(center, t)] center = t ∧
      (∀ i, linear_ramp_weight (stride i) 0 = 1 ∧
        linear_ramp_weight (stride i) (stride i : ℤ) = 0) ∧
      (∀ p : Fin 3 → ℤ, (∃ i, (p i - center i).natAbs = 2 * stride i) →
        stitched_field stride [(center, t)] p = fun _ => 0) ∧
      (∀ (s₁ s₂ : List ((Fin 3 → ℤ) × (Fin 3 → ℚ))) (p : Fin 3 → ℤ) (j : Fin 3),
        stitched_field stride (s₁ ++ s₂) p j =
          stitched_field stride s₁ p j + stitched_field stride s₂ p j) := by
  have hcast : ∀ i, ((stride i : ℚ)) ≠ 0 := by
    intro i
    exact_mod_cast (hs i).ne.symm
  refine ⟨?_, ?_, ?_, ?_⟩
  · have hw : stitch_window_weight stride (fun _ => (0 : ℤ)) = 1 := by
      rw [stitch_window_weight]
      apply Finset.prod_eq_one
      intro i _
      simp [linear_ramp_weight, div_self (hcast i)]
    funext j
    have hcond : ∀ i, ((center i - center i).natAbs ≤ stride i) := by
      intro i; simp
    simp [stitched_field, stitch_contribution, hcond]
    rw [hw, one_mul]
  · intro i
    constructor
    · simp [linear_ramp_weight, div_self (hcast i)]
    · simp [linear_ramp_weight]
  · rintro p ⟨i, hi⟩
    have hcond : ¬ (∀ k, (p k - center k).natAbs ≤ stride k) := by
      intro hall
      have h1 := hall i
      rw [hi] at h1
      have h2 := hs i
      omega
    funext j
    simp [stitched_field, stitch_contribution, hcond]
  · intro s₁ s₂ p j
    simp [stitched_field_eq_sum]

/-- Witness for C7 at unit stride and a concrete sample. -/
theorem stitched_field_properties_witness :
    stitched_field (fun _ => 1) [(fun _ => 0, fun _ => 2)] (fun _ => 0) =
      (fun _ => 2) :=
  (stitched_field_properties (fun _ => 1) (fun _ => Nat.one_pos)
    (fun _ => 0) (fun _ => 2)).1

/-- Every coordinate selected by the strided slice along one axis lies a full
context limit away from both edges. -/
theorem axis_sample_coords_in_bounds (a : ExhaustiveAxis) (c : ℕ)
    (hc : c ∈ axis_sample_coords a) : axis_center_in_bounds a c := by
  have hmem := List.mem_filter.mp hc
  have h1 : axis_limit a ≤ c ∧ c + axis_limit a < a.shape := by
    have h := hmem.2
    simp only [Bool.and_eq_true, decide_eq_true_eq] at h
    exact ⟨h.1.1, h.1.2⟩
  have hsr : axis_search_radius a ≤ axis_limit a := by
    unfold axis_limit
    split <;> omega
  have hst : a.stride ≤ axis_limit a := by
    unfold axis_limit
    split <;> omega
  have hq : a.query_radius ≤ axis_search_radius a := Nat.le_add_right _ _
  unfold axis_center_in_bounds
  omega

/-- C9: every sample center selected by
`distributed_piecewise_exhaustive_translation` lies at least the per-axis
context limit (max of search radius and stride) from every edge of the
volume, so every fixed-block and moving-block slice and every stitching
window around it stays inside the array bounds; a mask only removes further
sample centers. -/
theorem exhaustive_sample_points_in_bounds
    (a₀ a₁ a₂ : ExhaustiveAxis) (mask : ℕ × ℕ × ℕ → Bool) (p : ℕ × ℕ × ℕ)
    (hp : p ∈ exhaustive_sample_points_masked a₀ a₁ a₂ mask) :
    (axis_center_in_bounds a₀ p.1 ∧ axis_center_in_bounds a₁ p.2.1 ∧
        axis_center_in_bounds a₂ p.2.2) ∧
      p ∈ exhaustive_sample_points a₀ a₁ a₂ := by
  have hpts := (List.mem_filter.mp hp).1
  refine ⟨?_, hpts⟩
  obtain ⟨x, hx, hrest⟩ := List.mem_flatMap.mp hpts
  obtain ⟨y, hy, hz⟩ := List.mem_flatMap.mp hrest
  obtain ⟨z, hzc, hzp⟩ := List.mem_map.mp hz
  subst hzp
  exact ⟨axis_sample_coords_in_bounds a₀ x hx,
    axis_sample_coords_in_bounds a₁ y hy,
    axis_sample_coords_in_bounds a₂ z hzc⟩

/-- Witness for C9: shape 9, query radius 1, one step of size 1, stride 2 on
each axis; the center `(2, 2, 2)` survives masking and is in bounds. -/
theorem exhaustive_sample_points_in_bounds_witness :
    ((2, 2, 2) ∈ exhaustive_sample_points_masked
        { shape := 9, query_radius := 1, num_steps := 1, step_sizes := 1, stride := 2 }
        { shape := 9, query_radius := 1, num_steps := 1, step_sizes := 1, stride := 2 }
        { shape := 9, query_radius := 1, num_steps := 1, step_sizes := 1, stride := 2 }
        (fun _ => true)) ∧
      axis_center_in_bounds
        { shape := 9, query_radius := 1, num_steps := 1, step_sizes := 1, stride := 2 } 2 :=
  ⟨by decide,
   (exhaustive_sample_points_in_bounds
      { shape := 9, query_radius := 1, num_steps := 1, step_sizes := 1, stride := 2 }
      { shape := 9, query_radius := 1, num_steps := 1, step_sizes := 1, stride := 2 }
      { shape := 9, query_radius := 1, num_steps := 1, step_sizes := 1, stride := 2 }
      (fun _ => true) (2, 2, 2) (by decide)).1.1⟩
